import Mathlib

/-!
Verification of the `arrow-udf` core crate (`src/arrow-udf/src/lib.rs`).

The crate is a thin FFI boundary around an external columnar (Arrow IPC)
codec: `call_scalar` decodes an input byte buffer into a record batch,
applies a scalar function, wraps the resulting array into a one-column
"result" batch, and re-encodes it; `scalar_ffi_wrapper` drives
`call_scalar` and reports success (status 0, data buffer) or failure
(status -1, UTF-8 error text) through out-parameters.

The external Arrow libraries (`arrow_array`, `arrow_ipc`, `arrow_schema`)
are consumed as black boxes by the crate.  We embed them as an executable
model: record batches are lists of named typed columns, and the IPC file
codec is a concrete self-describing byte encoding (magic header, then a
length-prefixed list of batches, then magic footer) for which we prove the
decode/encode round trip.  The crate's own functions are then translated
statement by statement.
-/

namespace ArrowUdf

/-- Byte buffers crossing the FFI boundary, as lists of byte values. -/
abbrev Bytes := List Nat

/-! ## Data model of the external columnar library -/

/-- Column data types (model of `arrow_schema::DataType`). -/
inductive DataType
  | int32
  | int64
  | boolean
  | utf8
  deriving DecidableEq, Repr

/-- Cell values held by a column (model of Arrow array elements). -/
inductive Value
  | vInt (i : Int)
  | vStr (s : String)
  | vBool (b : Bool)
  | vNull
  deriving DecidableEq, Repr

/-- A schema field: name, data type, nullability (model of `arrow_schema::Field`). -/
structure Field where
  name : String
  dtype : DataType
  nullable : Bool
  deriving DecidableEq, Repr

/-- A typed column of values (model of `arrow_array::ArrayRef`). -/
structure ArrayRef where
  dtype : DataType
  values : List Value
  deriving DecidableEq, Repr

/-- A record batch: a schema together with its columns
(model of `arrow_array::RecordBatch`). -/
structure RecordBatch where
  schema : List Field
  columns : List ArrayRef
  deriving DecidableEq, Repr

/-- Model of `arrow_schema::ArrowError` (re-exported by the crate as `Error`). -/
inductive ArrowError
  | parseError (msg : String)
  | computeError (msg : String)
  | invalidArgumentError (msg : String)
  | ioError (msg : String)
  deriving DecidableEq, Repr

/-- `Display` of `ArrowError` (what `err.to_string()` produces). -/
def ArrowError.toString : ArrowError → String
  | .parseError m => "Parser error: " ++ m
  | .computeError m => "Compute error: " ++ m
  | .invalidArgumentError m => "Invalid argument error: " ++ m
  | .ioError m => "Io error: " ++ m

/-- Model of `ScalarFunction = fn(&RecordBatch) -> Result<ArrayRef>`. -/
abbrev ScalarFunction := RecordBatch → Except ArrowError ArrayRef

/-! ## The IPC file codec (model of `arrow_ipc` reader/writer)

A concrete executable byte encoding playing the role of the Arrow IPC file
format: a magic header, a length-prefixed list of record batches, and the
magic again as footer.  Naturals are encoded in self-delimiting unary. -/

/-- Unary encoding of a natural: `n` ones followed by a zero. -/
def encNat : Nat → Bytes
  | 0 => [0]
  | n + 1 => 1 :: encNat n

/-- Decoder for `encNat`; returns the value and the remaining bytes. -/
def decNat : Bytes → Option (Nat × Bytes)
  | [] => none
  | 0 :: rest => some (0, rest)
  | 1 :: rest =>
    match decNat rest with
    | some (n, r) => some (n + 1, r)
    | none => none
  | _ => none

/-- Integer encoding: a sign tag then the magnitude. -/
def encInt : Int → Bytes
  | .ofNat n => 2 :: encNat n
  | .negSucc n => 3 :: encNat n

/-- Decoder for `encInt`. -/
def decInt : Bytes → Option (Int × Bytes)
  | 2 :: rest =>
    match decNat rest with
    | some (n, r) => some (Int.ofNat n, r)
    | none => none
  | 3 :: rest =>
    match decNat rest with
    | some (n, r) => some (Int.negSucc n, r)
    | none => none
  | _ => none

/-- Boolean encoding. -/
def encBool : Bool → Bytes
  | false => [0]
  | true => [1]

/-- Decoder for `encBool`. -/
def decBool : Bytes → Option (Bool × Bytes)
  | 0 :: rest => some (false, rest)
  | 1 :: rest => some (true, rest)
  | _ => none

/-- String encoding: length-prefixed list of character codes. -/
def encString (s : String) : Bytes :=
  encNat s.data.length ++ (s.data.map (fun c => encNat c.toNat)).flatten

/-- Decode `n` characters. -/
def decChars : Nat → Bytes → Option (List Char × Bytes)
  | 0, bs => some ([], bs)
  | n + 1, bs =>
    match decNat bs with
    | some (k, r) =>
      match decChars n r with
      | some (cs, r') => some (Char.ofNat k :: cs, r')
      | none => none
    | none => none

/-- Decoder for `encString`. -/
def decString (bs : Bytes) : Option (String × Bytes) :=
  match decNat bs with
  | some (n, r) =>
    match decChars n r with
    | some (cs, r') => some (String.mk cs, r')
    | none => none
  | none => none

/-- Length-prefixed list encoding. -/
def encList (enc : α → Bytes) (xs : List α) : Bytes :=
  encNat xs.length ++ (xs.map enc).flatten

/-- Decode exactly `n` elements with `dec`. -/
def decCount (dec : Bytes → Option (α × Bytes)) : Nat → Bytes → Option (List α × Bytes)
  | 0, bs => some ([], bs)
  | n + 1, bs =>
    match dec bs with
    | some (x, r) =>
      match decCount dec n r with
      | some (xs, r') => some (x :: xs, r')
      | none => none
    | none => none

/-- Decoder for `encList`. -/
def decList (dec : Bytes → Option (α × Bytes)) (bs : Bytes) : Option (List α × Bytes) :=
  match decNat bs with
  | some (n, r) => decCount dec n r
  | none => none

/-- Data type encoding: one tag byte. -/
def encDataType : DataType → Bytes
  | .int32 => [0]
  | .int64 => [1]
  | .boolean => [2]
  | .utf8 => [3]

/-- Decoder for `encDataType`. -/
def decDataType : Bytes → Option (DataType × Bytes)
  | 0 :: rest => some (.int32, rest)
  | 1 :: rest => some (.int64, rest)
  | 2 :: rest => some (.boolean, rest)
  | 3 :: rest => some (.utf8, rest)
  | _ => none

/-- Value encoding: a tag byte then the payload. -/
def encValue : Value → Bytes
  | .vInt i => 0 :: encInt i
  | .vStr s => 1 :: encString s
  | .vBool b => 2 :: encBool b
  | .vNull => [3]

/-- Decoder for `encValue`. -/
def decValue : Bytes → Option (Value × Bytes)
  | 0 :: rest =>
    match decInt rest with
    | some (i, r) => some (.vInt i, r)
    | none => none
  | 1 :: rest =>
    match decString rest with
    | some (s, r) => some (.vStr s, r)
    | none => none
  | 2 :: rest =>
    match decBool rest with
    | some (b, r) => some (.vBool b, r)
    | none => none
  | 3 :: rest => some (.vNull, rest)
  | _ => none

/-- Field encoding: name, data type, nullability. -/
def encField (f : Field) : Bytes :=
  encString f.name ++ encDataType f.dtype ++ encBool f.nullable

/-- Decoder for `encField`. -/
def decField (bs : Bytes) : Option (Field × Bytes) :=
  match decString bs with
  | some (n, r) =>
    match decDataType r with
    | some (d, r') =>
      match decBool r' with
      | some (b, r'') => some (⟨n, d, b⟩, r'')
      | none => none
    | none => none
  | none => none

/-- Column encoding: data type then values. -/
def encArray (a : ArrayRef) : Bytes :=
  encDataType a.dtype ++ encList encValue a.values

/-- Decoder for `encArray`. -/
def decArray (bs : Bytes) : Option (ArrayRef × Bytes) :=
  match decDataType bs with
  | some (d, r) =>
    match decList decValue r with
    | some (vs, r') => some (⟨d, vs⟩, r')
    | none => none
  | none => none

/-- Batch encoding: schema fields then columns. -/
def encBatch (b : RecordBatch) : Bytes :=
  encList encField b.schema ++ encList encArray b.columns

/-- Decoder for `encBatch`. -/
def decBatch (bs : Bytes) : Option (RecordBatch × Bytes) :=
  match decList decField bs with
  | some (fs, r) =>
    match decList decArray r with
    | some (cs, r') => some (⟨fs, cs⟩, r')
    | none => none
  | none => none

/-- The magic bytes framing an IPC file ("ARROW1"). -/
def MAGIC : Bytes := [65, 82, 82, 79, 87, 49]

/-- Serialize a list of record batches as an IPC file
(model of `FileWriter`: header, batches, footer). -/
def encodeFile (batches : List RecordBatch) : Bytes :=
  MAGIC ++ encList encBatch batches ++ MAGIC

/-- Parse an IPC file into its list of record batches (model of
`FileReader::try_new` plus draining the reader).  Fails with a
`ParseError` on any malformed input, in particular on an empty buffer. -/
def decodeFile (bytes : Bytes) : Except ArrowError (List RecordBatch) :=
  match bytes with
  | 65 :: 82 :: 82 :: 79 :: 87 :: 49 :: rest =>
    match decList decBatch rest with
    | some (batches, r) =>
      if r = MAGIC then .ok batches
      else .error (.parseError "Arrow file footer is corrupted")
    | none => .error (.parseError "Arrow file body is corrupted")
  | _ => .error (.parseError "Arrow file does not contain correct header")

/-- Model of `RecordBatch::try_new(schema, columns)` from `arrow_array`,
with the library's validation steps: column count matches field count, a
row count is inferable (at least one column), non-nullable fields hold no
nulls, all columns have equal length, and column types match the schema. -/
def recordBatchTryNew (schema : List Field) (columns : List ArrayRef) :
    Except ArrowError RecordBatch :=
  if schema.length ≠ columns.length then
    .error (.invalidArgumentError "number of columns must match number of fields in schema")
  else
    match columns.head? with
    | none => .error (.invalidArgumentError "must either specify a row_count or at least one column")
    | some c0 =>
      if (schema.zip columns).any
          (fun fc => !fc.1.nullable && fc.2.values.contains .vNull) then
        .error (.invalidArgumentError "column is declared as non-nullable but contains null values")
      else if columns.any (fun c => c.values.length ≠ c0.values.length) then
        .error (.invalidArgumentError "all columns in a record batch must have the same length")
      else if (schema.zip columns).any (fun fc => fc.1.dtype ≠ fc.2.dtype) then
        .error (.invalidArgumentError "column types must match schema types")
      else
        .ok ⟨schema, columns⟩

/-- Model of `FileWriter::try_new(&mut buf, &schema)` followed by
`writer.write(&batch)?` and `writer.finish()?`: writing a batch whose
schema differs from the writer's fails; otherwise the in-memory buffer
ends up holding the one-batch IPC file.  (I/O into a `Vec<u8>` cannot
itself fail.) -/
def fileWriteOne (schema : List Field) (batch : RecordBatch) : Except ArrowError Bytes :=
  if batch.schema = schema then .ok (encodeFile [batch])
  else .error (.ioError "Cannot write batch with different schema")

/-! ## The crate's functions (`src/arrow-udf/src/lib.rs`) -/

/-- Outcome of `call_scalar`: `Ok(buffer)`, `Err(error)`, or a process
abort from the unconditional `.unwrap()` on the reader's first batch. -/
inductive CallResult
  | ok (data : Bytes)
  | err (e : ArrowError)
  | panicked
  deriving DecidableEq, Repr

/-- Translation of `call_scalar` (lib.rs lines 110-129):
parse the input as an IPC file, take the reader's first batch
(`reader.next().unwrap()?` — aborting when the stream holds no batch),
apply the function, wrap its output array as the single column `"result"`
(nullable) of a fresh batch, and serialize that batch. -/
def call_scalar (function : ScalarFunction) (input_bytes : Bytes) : CallResult :=
  match decodeFile input_bytes with
  | .error e => .err e
  | .ok batches =>
    match batches with
    | [] => .panicked
    | input_batch :: _ =>
      match function input_batch with
      | .error e => .err e
      | .ok output_array =>
        let schema : List Field := [⟨"result", output_array.dtype, true⟩]
        match recordBatchTryNew schema [output_array] with
        | .error e => .err e
        | .ok batch =>
          match fileWriteOne schema batch with
          | .error e => .err e
          | .ok buf => .ok buf

/-- UTF-8 encoding of a string as a byte list (what
`err.to_string().into_boxed_str()` exposes across the boundary). -/
def strToBytes (s : String) : Bytes :=
  (s.data.flatMap String.utf8EncodeChar).map UInt8.toNat

/-- What `scalar_ffi_wrapper` writes through `out_ptr`/`out_len`,
together with its return status. -/
structure FfiOutput where
  status : Int
  buffer : Bytes
  deriving DecidableEq, Repr

/-- Translation of `scalar_ffi_wrapper` (lib.rs lines 85-108): on
`Ok(data)` it publishes the data buffer and returns 0; on `Err(err)` it
publishes the UTF-8 bytes of `err.to_string()` and returns -1.  `none`
models the process abort propagated from `call_scalar`'s `.unwrap()`. -/
def scalar_ffi_wrapper (function : ScalarFunction) (input : Bytes) : Option FfiOutput :=
  match call_scalar function input with
  | .ok data => some ⟨0, data⟩
  | .err e => some ⟨-1, strToBytes e.toString⟩
  | .panicked => none

/-- The exported version marker `ARROWUDF_VERSION: u8 = 1` (lib.rs line 71). -/
def ARROWUDF_VERSION : Nat := 1

/-! ## Explicit-state view of the wrapper

The source holds no global mutable state; its only effect is allocating
the published output buffer (the `Vec`/`Box<str>` whose ownership is
forgotten and handed to the caller).  To state that, we thread the
allocator's heap explicitly: a call appends exactly one buffer. -/

/-- The allocator's view of the boundary heap: the buffers currently
handed out, in allocation order. -/
structure Heap where
  bufs : List Bytes
  deriving DecidableEq, Repr

/-- Allocate one buffer holding `data`. -/
def Heap.allocBuf (h : Heap) (data : Bytes) : Heap := ⟨h.bufs ++ [data]⟩

/-- `scalar_ffi_wrapper` with the allocator heap threaded explicitly:
identical control flow to `scalar_ffi_wrapper`, plus the single
allocation of the published buffer. -/
def scalar_ffi_wrapper_st (function : ScalarFunction) (input : Bytes) (h : Heap) :
    Option (FfiOutput × Heap) :=
  match call_scalar function input with
  | .ok data => some (⟨0, data⟩, h.allocBuf data)
  | .err e => some (⟨-1, strToBytes e.toString⟩, h.allocBuf (strToBytes e.toString))
  | .panicked => none

/-! ## The `types::Interval` value (lib.rs lines 31-36) -/

/-- Model of `types::Interval { months: i32, days: i32, nanos: i64 }`. -/
structure Interval where
  months : Int
  days : Int
  nanos : Int
  deriving DecidableEq, Repr

/-- The comparison produced by `derive(PartialOrd, Ord)`: fields are
compared in declaration order, the first non-equal field decides. -/
def Interval.cmp (a b : Interval) : Ordering :=
  match compare a.months b.months with
  | .eq =>
    match compare a.days b.days with
    | .eq => compare a.nanos b.nanos
    | o => o
  | o => o

/-- The field stream that `derive(Hash)` feeds to the hasher, in
declaration order. -/
def Interval.hashFields (a : Interval) : List Int :=
  [a.months, a.days, a.nanos]

/-! ## Round trip of the codec -/

theorem decNat_encNat (n : Nat) (r : Bytes) : decNat (encNat n ++ r) = some (n, r) := by
  induction n with
  | zero => rfl
  | succ n ih => simp [encNat, decNat, ih]

theorem decInt_encInt (i : Int) (r : Bytes) : decInt (encInt i ++ r) = some (i, r) := by
  cases i with
  | ofNat n => simp [encInt, decInt, decNat_encNat]
  | negSucc n => simp [encInt, decInt, decNat_encNat]

theorem decBool_encBool (b : Bool) (r : Bytes) : decBool (encBool b ++ r) = some (b, r) := by
  cases b <;> rfl

theorem decChars_encChars (cs : List Char) (r : Bytes) :
    decChars cs.length ((cs.map (fun c => encNat c.toNat)).flatten ++ r) = some (cs, r) := by
  induction cs with
  | nil => rfl
  | cons c cs ih =>
    simp [decChars, List.append_assoc, decNat_encNat, ih, Char.ofNat_toNat]

theorem decString_encString (s : String) (r : Bytes) :
    decString (encString s ++ r) = some (s, r) := by
  have h := decChars_encChars s.data r
  simp only [decString, encString, List.append_assoc, decNat_encNat]
  rw [h]

theorem decCount_encList (enc : α → Bytes) (dec : Bytes → Option (α × Bytes))
    (h : ∀ x r, dec (enc x ++ r) = some (x, r)) (xs : List α) (r : Bytes) :
    decCount dec xs.length ((xs.map enc).flatten ++ r) = some (xs, r) := by
  induction xs with
  | nil => rfl
  | cons x xs ih => simp [decCount, List.append_assoc, h, ih]

theorem decList_encList (enc : α → Bytes) (dec : Bytes → Option (α × Bytes))
    (h : ∀ x r, dec (enc x ++ r) = some (x, r)) (xs : List α) (r : Bytes) :
    decList dec (encList enc xs ++ r) = some (xs, r) := by
  simp [decList, encList, List.append_assoc, decNat_encNat, decCount_encList enc dec h]

theorem decDataType_encDataType (d : DataType) (r : Bytes) :
    decDataType (encDataType d ++ r) = some (d, r) := by
  cases d <;> rfl

theorem decValue_encValue (v : Value) (r : Bytes) :
    decValue (encValue v ++ r) = some (v, r) := by
  cases v with
  | vInt i => simp [encValue, decValue, List.append_assoc, decInt_encInt]
  | vStr s => simp [encValue, decValue, List.append_assoc, decString_encString]
  | vBool b => simp [encValue, decValue, List.append_assoc, decBool_encBool]
  | vNull => rfl

theorem decField_encField (f : Field) (r : Bytes) :
    decField (encField f ++ r) = some (f, r) := by
  simp [decField, encField, List.append_assoc, decString_encString,
    decDataType_encDataType, decBool_encBool]

theorem decArray_encArray (a : ArrayRef) (r : Bytes) :
    decArray (encArray a ++ r) = some (a, r) := by
  simp [decArray, encArray, List.append_assoc, decDataType_encDataType,
    decList_encList encValue decValue decValue_encValue]

theorem decBatch_encBatch (b : RecordBatch) (r : Bytes) :
    decBatch (encBatch b ++ r) = some (b, r) := by
  simp [decBatch, encBatch, List.append_assoc,
    decList_encList encField decField decField_encField,
    decList_encList encArray decArray decArray_encArray]

theorem decodeFile_encodeFile (batches : List RecordBatch) :
    decodeFile (encodeFile batches) = .ok batches := by
  simp [decodeFile, encodeFile, MAGIC, List.append_assoc,
    decList_encList encBatch decBatch decBatch_encBatch]

/-! ## Helper lemmas on the success path -/

/-- The one-column `"result"` batch that `call_scalar` wraps a returned
array into. -/
def resultBatch (arr : ArrayRef) : RecordBatch :=
  ⟨[⟨"result", arr.dtype, true⟩], [arr]⟩

/-- `RecordBatch::try_new` always succeeds on the envelope `call_scalar`
builds: one field whose data type is taken from the column itself and
whose nullability is `true`. -/
theorem recordBatchTryNew_envelope (arr : ArrayRef) :
    recordBatchTryNew [⟨"result", arr.dtype, true⟩] [arr] = .ok (resultBatch arr) := by
  simp [recordBatchTryNew, resultBatch]

/-- On the success path, `call_scalar` returns the one-batch IPC encoding
of the `"result"` envelope around the function's output array. -/
theorem call_scalar_ok (f : ScalarFunction) (buf : Bytes) (b : RecordBatch)
    (bs : List RecordBatch) (arr : ArrayRef)
    (hdec : decodeFile buf = .ok (b :: bs)) (hf : f b = .ok arr) :
    call_scalar f buf = .ok (encodeFile [resultBatch arr]) := by
  simp [call_scalar, hdec, hf, recordBatchTryNew_envelope, fileWriteOne, resultBatch]

/-- On an error from the decoder or the function, `call_scalar` propagates
exactly that error. -/
theorem call_scalar_decode_err (f : ScalarFunction) (buf : Bytes) (e : ArrowError)
    (hdec : decodeFile buf = .error e) : call_scalar f buf = .err e := by
  simp [call_scalar, hdec]

/-! ## The claims -/

/-- C1: for every scalar function `f` and every input buffer that is a
well-formed IPC file holding at least one batch, when `f` returns `Ok` on
the first decoded batch, `scalar_ffi_wrapper` returns status 0 and
publishes a buffer that parses back to exactly one record batch, with
exactly one column named `"result"` whose values are exactly the array
`f` returned. -/
theorem scalar_success_roundtrip (f : ScalarFunction) (buf : Bytes)
    (b : RecordBatch) (bs : List RecordBatch) (arr : ArrayRef)
    (hdec : decodeFile buf = .ok (b :: bs)) (hf : f b = .ok arr) :
    ∃ out : Bytes, ∃ batch : RecordBatch,
      scalar_ffi_wrapper f buf = some ⟨0, out⟩ ∧
      decodeFile out = .ok [batch] ∧
      batch.columns = [arr] ∧
      batch.schema.map Field.name = ["result"] := by
  refine ⟨encodeFile [resultBatch arr], resultBatch arr, ?_, decodeFile_encodeFile _, rfl, rfl⟩
  simp [scalar_ffi_wrapper, call_scalar_ok f buf b bs arr hdec hf]

/-- Witness for C1 at a concrete input: the batch `x:int32 = [1,2,3]`
with a function returning `int32 = [2,3,4]`. -/
def exampleInputBatch : RecordBatch :=
  ⟨[⟨"x", .int32, false⟩], [⟨.int32, [.vInt 1, .vInt 2, .vInt 3]⟩]⟩

/-- The array `[2,3,4] : int32` used as a concrete function output. -/
def exampleOutputArray : ArrayRef := ⟨.int32, [.vInt 2, .vInt 3, .vInt 4]⟩

/-- A concrete scalar function succeeding with `exampleOutputArray`. -/
def exampleAdd1 : ScalarFunction := fun _ => .ok exampleOutputArray

/-- C1 witness: the success round trip at the concrete `x+1` scenario. -/
theorem scalar_success_roundtrip_witness :
    ∃ out : Bytes, ∃ batch : RecordBatch,
      scalar_ffi_wrapper exampleAdd1 (encodeFile [exampleInputBatch]) = some ⟨0, out⟩ ∧
      decodeFile out = .ok [batch] ∧
      batch.columns = [exampleOutputArray] ∧
      batch.schema.map Field.name = ["result"] :=
  scalar_success_roundtrip exampleAdd1 (encodeFile [exampleInputBatch])
    exampleInputBatch [] exampleOutputArray
    (decodeFile_encodeFile [exampleInputBatch]) rfl

/-- C2: for every input buffer the IPC reader rejects, `scalar_ffi_wrapper`
returns status -1 and publishes the UTF-8 encoding of the error's textual
description — in particular a buffer that is valid UTF-8 text. -/
theorem parse_failure_reports_utf8 (f : ScalarFunction) (buf : Bytes) (e : ArrowError)
    (hdec : decodeFile buf = .error e) :
    ∃ s : String,
      scalar_ffi_wrapper f buf = some ⟨-1, strToBytes s⟩ ∧
      s = e.toString := by
  exact ⟨e.toString, by simp [scalar_ffi_wrapper, call_scalar_decode_err f buf e hdec], rfl⟩

/-- C2 witness: a two-byte garbage buffer is rejected by the header check. -/
theorem parse_failure_reports_utf8_witness :
    ∃ s : String,
      scalar_ffi_wrapper exampleAdd1 [1, 2] = some ⟨-1, strToBytes s⟩ ∧
      s = (ArrowError.parseError "Arrow file does not contain correct header").toString :=
  parse_failure_reports_utf8 exampleAdd1 [1, 2]
    (.parseError "Arrow file does not contain correct header") rfl

/-- C3: on a well-formed stream holding zero batches, `call_scalar` does
not return a recoverable error: the `.unwrap()` of the reader's first
batch aborts the process (`panicked`), so `scalar_ffi_wrapper` never
reaches its error branch for such inputs. -/
theorem empty_stream_panics (f : ScalarFunction) (buf : Bytes)
    (hdec : decodeFile buf = .ok []) :
    call_scalar f buf = .panicked ∧
    (∀ e : ArrowError, call_scalar f buf ≠ .err e) ∧
    scalar_ffi_wrapper f buf = none := by
  refine ⟨by simp [call_scalar, hdec], ?_, by simp [scalar_ffi_wrapper, call_scalar, hdec]⟩
  intro e
  simp [call_scalar, hdec]

/-- C3 witness: the encoding of the empty batch list is well formed and
makes the wrapper abort. -/
theorem empty_stream_panics_witness :
    call_scalar exampleAdd1 (encodeFile []) = .panicked ∧
    (∀ e : ArrowError, call_scalar exampleAdd1 (encodeFile []) ≠ .err e) ∧
    scalar_ffi_wrapper exampleAdd1 (encodeFile []) = none :=
  empty_stream_panics exampleAdd1 (encodeFile []) (decodeFile_encodeFile [])

/-- C4: whenever the invocation succeeds, the envelope batch built by
`call_scalar` has exactly one column, its field is named `"result"`, the
field's data type is the returned array's runtime data type, and the
field is marked nullable no matter what values (nulls or not) the array
holds. -/
theorem output_envelope_shape (f : ScalarFunction) (buf : Bytes)
    (b : RecordBatch) (bs : List RecordBatch) (arr : ArrayRef)
    (hdec : decodeFile buf = .ok (b :: bs)) (hf : f b = .ok arr) :
    ∃ batch : RecordBatch,
      call_scalar f buf = .ok (encodeFile [batch]) ∧
      batch.columns.length = 1 ∧
      batch.schema = [⟨"result", arr.dtype, true⟩] := by
  exact ⟨resultBatch arr, call_scalar_ok f buf b bs arr hdec hf, rfl, rfl⟩

/-- An output array containing a null, to exhibit that nullability is
`true` independently of content. -/
def exampleNullArray : ArrayRef := ⟨.int64, [.vNull, .vInt 5]⟩

/-- A concrete scalar function returning an array that contains a null. -/
def exampleNullF : ScalarFunction := fun _ => .ok exampleNullArray

/-- C4 witness: the envelope around an `int64` array containing a null is
the single nullable field `"result" : int64`. -/
theorem output_envelope_shape_witness :
    ∃ batch : RecordBatch,
      call_scalar exampleNullF (encodeFile [exampleInputBatch]) = .ok (encodeFile [batch]) ∧
      batch.columns.length = 1 ∧
      batch.schema = [⟨"result", DataType.int64, true⟩] :=
  output_envelope_shape exampleNullF (encodeFile [exampleInputBatch])
    exampleInputBatch [] exampleNullArray
    (decodeFile_encodeFile [exampleInputBatch]) rfl

/-- C5: when the function itself fails with error `e`, `call_scalar`
returns exactly `e` (no retry, no rewriting), and `scalar_ffi_wrapper`
reports status -1 with precisely the UTF-8 bytes of `e`'s description. -/
theorem function_error_propagates (f : ScalarFunction) (buf : Bytes)
    (b : RecordBatch) (bs : List RecordBatch) (e : ArrowError)
    (hdec : decodeFile buf = .ok (b :: bs)) (hf : f b = .error e) :
    call_scalar f buf = .err e ∧
    scalar_ffi_wrapper f buf = some ⟨-1, strToBytes e.toString⟩ := by
  have hc : call_scalar f buf = .err e := by simp [call_scalar, hdec, hf]
  exact ⟨hc, by simp [scalar_ffi_wrapper, hc]⟩

/-- A concrete failing scalar function. -/
def exampleFailF : ScalarFunction := fun _ => .error (.computeError "division by zero")

/-- C5 witness: the concrete failing function's error text crosses the
boundary unmodified. -/
theorem function_error_propagates_witness :
    call_scalar exampleFailF (encodeFile [exampleInputBatch]) =
      .err (.computeError "division by zero") ∧
    scalar_ffi_wrapper exampleFailF (encodeFile [exampleInputBatch]) =
      some ⟨-1, strToBytes (ArrowError.computeError "division by zero").toString⟩ :=
  function_error_propagates exampleFailF (encodeFile [exampleInputBatch])
    exampleInputBatch [] (.computeError "division by zero")
    (decodeFile_encodeFile [exampleInputBatch]) rfl

/-- C6: the exported protocol version marker is the fixed constant 1
(representable as the `u8` the source declares); being a constant of the
embedding, no operation can modify it. -/
theorem version_marker_is_one : ARROWUDF_VERSION = 1 ∧ ARROWUDF_VERSION < 256 :=
  ⟨rfl, by decide⟩

/-! ### The derived `Interval` order -/

/-- The derived comparison returns `lt` exactly on the lexicographic
strict order of the field triple. -/
theorem interval_cmp_lt (a b : Interval) :
    Interval.cmp a b = .lt ↔
      a.months < b.months ∨ (a.months = b.months ∧
        (a.days < b.days ∨ (a.days = b.days ∧ a.nanos < b.nanos))) := by
  unfold Interval.cmp
  cases hm : compare a.months b.months with
  | lt => have h := compare_lt_iff_lt.mp hm; simp; omega
  | gt => have h := compare_gt_iff_gt.mp hm; simp; omega
  | eq =>
    have hm' := compare_eq_iff_eq.mp hm
    cases hd : compare a.days b.days with
    | lt => have h := compare_lt_iff_lt.mp hd; simp; omega
    | gt => have h := compare_gt_iff_gt.mp hd; simp; omega
    | eq =>
      have hd' := compare_eq_iff_eq.mp hd
      cases hn : compare a.nanos b.nanos with
      | lt => have h := compare_lt_iff_lt.mp hn; simp; omega
      | gt => have h := compare_gt_iff_gt.mp hn; simp; omega
      | eq => have hn' := compare_eq_iff_eq.mp hn; simp; omega

/-- The derived comparison returns `eq` exactly on field-for-field
equality. -/
theorem interval_cmp_eq_iff (a b : Interval) :
    Interval.cmp a b = .eq ↔
      a.months = b.months ∧ a.days = b.days ∧ a.nanos = b.nanos := by
  unfold Interval.cmp
  cases hm : compare a.months b.months with
  | lt => have h := compare_lt_iff_lt.mp hm; simp; omega
  | gt => have h := compare_gt_iff_gt.mp hm; simp; omega
  | eq =>
    have hm' := compare_eq_iff_eq.mp hm
    cases hd : compare a.days b.days with
    | lt => have h := compare_lt_iff_lt.mp hd; simp; omega
    | gt => have h := compare_gt_iff_gt.mp hd; simp; omega
    | eq =>
      have hd' := compare_eq_iff_eq.mp hd
      cases hn : compare a.nanos b.nanos with
      | lt => have h := compare_lt_iff_lt.mp hn; simp; omega
      | gt => have h := compare_gt_iff_gt.mp hn; simp; omega
      | eq => have hn' := compare_eq_iff_eq.mp hn; simp; omega

/-- C7: `Interval` comparison is the lexicographic total order on the
triple (months, days, nanos); equality holds exactly field-for-field (no
normalization: 30 days never fold into a month), and equal values feed
identical field streams to any hasher, hence hash equally. -/
theorem interval_lex_total_order (a b : Interval) :
    (Interval.cmp a b = .lt ↔
      a.months < b.months ∨ (a.months = b.months ∧
        (a.days < b.days ∨ (a.days = b.days ∧ a.nanos < b.nanos)))) ∧
    (Interval.cmp a b = .eq ↔ a = b) ∧
    (Interval.cmp a b = .gt ↔ Interval.cmp b a = .lt) ∧
    (a = b ↔ a.months = b.months ∧ a.days = b.days ∧ a.nanos = b.nanos) ∧
    (∀ hasher : List Int → Nat, a = b → hasher a.hashFields = hasher b.hashFields) := by
  have hlt := interval_cmp_lt a b
  have hlt' := interval_cmp_lt b a
  have heq := interval_cmp_eq_iff a b
  have hab : a = b ↔ a.months = b.months ∧ a.days = b.days ∧ a.nanos = b.nanos := by
    obtain ⟨am, ad, an⟩ := a
    obtain ⟨bm, bd, bn⟩ := b
    simp
  refine ⟨hlt, heq.trans hab.symm, ?_, hab, fun hasher h => by rw [h]⟩
  constructor
  · intro h
    have h1 : ¬ Interval.cmp a b = .lt := by rw [h]; simp
    have h2 : ¬ Interval.cmp a b = .eq := by rw [h]; simp
    rw [hlt] at h1
    rw [heq] at h2
    exact hlt'.mpr (by omega)
  · intro h
    have h3 := hlt'.mp h
    have tri : Interval.cmp a b = .lt ∨ Interval.cmp a b = .eq ∨ Interval.cmp a b = .gt := by
      cases Interval.cmp a b <;> simp
    rcases tri with h4 | h4 | h4
    · exact absurd (hlt.mp h4) (by omega)
    · exact absurd (heq.mp h4) (by omega)
    · exact h4

/-- C7 witness: 30 days do not fold into a month (order is strictly
lexicographic) and comparison of equal triples yields `eq`. -/
theorem interval_lex_total_order_witness :
    Interval.cmp ⟨1, 30, 0⟩ ⟨2, 0, 0⟩ = .lt ∧
    Interval.cmp ⟨5, 6, 7⟩ ⟨5, 6, 7⟩ = .eq :=
  ⟨(interval_lex_total_order ⟨1, 30, 0⟩ ⟨2, 0, 0⟩).1.mpr (Or.inl (by decide)),
   (interval_lex_total_order ⟨5, 6, 7⟩ ⟨5, 6, 7⟩).2.1.mpr rfl⟩

/-- C8: the wrapper is deterministic and effect-free apart from the one
output-buffer allocation: its published result is independent of the
allocator's pre-state (so two runs on equal inputs agree), and the only
state change of a completed call is appending that single published
buffer to the heap. -/
theorem wrapper_pure_state (f : ScalarFunction) (b : Bytes) (h1 h2 : Heap) :
    Option.map Prod.fst (scalar_ffi_wrapper_st f b h1) =
      Option.map Prod.fst (scalar_ffi_wrapper_st f b h2) ∧
    (∀ r : FfiOutput, ∀ g : Heap, scalar_ffi_wrapper_st f b h1 = some (r, g) →
      g.bufs = h1.bufs ++ [r.buffer]) := by
  cases hc : call_scalar f b with
  | ok data =>
    refine ⟨by simp [scalar_ffi_wrapper_st, hc], ?_⟩
    intro r g hr
    simp [scalar_ffi_wrapper_st, hc, Heap.allocBuf] at hr
    simp [← hr.1, ← hr.2, Heap.allocBuf]
  | err e =>
    refine ⟨by simp [scalar_ffi_wrapper_st, hc], ?_⟩
    intro r g hr
    simp [scalar_ffi_wrapper_st, hc, Heap.allocBuf] at hr
    simp [← hr.1, ← hr.2, Heap.allocBuf]
  | panicked => exact ⟨by simp [scalar_ffi_wrapper_st, hc], by simp [scalar_ffi_wrapper_st, hc]⟩

/-- C8 witness: the wrapper's result on a concrete input is the same over
two different pre-heaps, and the completed call appends exactly its
output buffer. -/
theorem wrapper_pure_state_witness :
    Option.map Prod.fst (scalar_ffi_wrapper_st exampleAdd1 [] ⟨[]⟩) =
      Option.map Prod.fst (scalar_ffi_wrapper_st exampleAdd1 [] ⟨[[9]]⟩) ∧
    (∀ r : FfiOutput, ∀ g : Heap, scalar_ffi_wrapper_st exampleAdd1 [] ⟨[]⟩ = some (r, g) →
      g.bufs = (⟨[]⟩ : Heap).bufs ++ [r.buffer]) :=
  wrapper_pure_state exampleAdd1 [] ⟨[]⟩ ⟨[[9]]⟩

/-- C9: with a well-formed stream of two or more batches, only the first
batch matters: the call behaves identically to a call on a stream holding
just that first batch. -/
theorem first_batch_only (f : ScalarFunction) (buf1 buf2 : Bytes)
    (b : RecordBatch) (bs : List RecordBatch)
    (h1 : decodeFile buf1 = .ok (b :: bs)) (h2 : decodeFile buf2 = .ok [b]) :
    call_scalar f buf1 = call_scalar f buf2 ∧
    scalar_ffi_wrapper f buf1 = scalar_ffi_wrapper f buf2 := by
  have hc : call_scalar f buf1 = call_scalar f buf2 := by
    simp [call_scalar, h1, h2]
  exact ⟨hc, by simp [scalar_ffi_wrapper, hc]⟩

/-- A second batch, to append behind the first in the C9 witness. -/
def exampleSecondBatch : RecordBatch :=
  ⟨[⟨"y", .utf8, true⟩], [⟨.utf8, [.vStr "abc"]⟩]⟩

/-- C9 witness: a two-batch stream and the corresponding one-batch stream
give identical results on a concrete function. -/
theorem first_batch_only_witness :
    call_scalar exampleAdd1 (encodeFile [exampleInputBatch, exampleSecondBatch]) =
      call_scalar exampleAdd1 (encodeFile [exampleInputBatch]) ∧
    scalar_ffi_wrapper exampleAdd1 (encodeFile [exampleInputBatch, exampleSecondBatch]) =
      scalar_ffi_wrapper exampleAdd1 (encodeFile [exampleInputBatch]) :=
  first_batch_only exampleAdd1 _ _ exampleInputBatch [exampleSecondBatch]
    (decodeFile_encodeFile [exampleInputBatch, exampleSecondBatch])
    (decodeFile_encodeFile [exampleInputBatch])

/-- C10: the empty input buffer does not abort the wrapper: the IPC
header check rejects it, so every function gets status -1 and a UTF-8
error-text buffer through the out-parameters. -/
theorem empty_buffer_reports_error (f : ScalarFunction) :
    scalar_ffi_wrapper f [] ≠ none ∧
    ∃ s : String, scalar_ffi_wrapper f [] = some ⟨-1, strToBytes s⟩ := by
  have hc := call_scalar_decode_err f []
    (.parseError "Arrow file does not contain correct header") rfl
  refine ⟨?_, ⟨(ArrowError.parseError "Arrow file does not contain correct header").toString, ?_⟩⟩ <;>
    simp [scalar_ffi_wrapper, hc]

end ArrowUdf
